import Mathlib

/-!
Verification of the BMP codec in OpenF (`src/openf.h`).

A byte stream (the content of a BMP file) is modelled as a `List Nat`, one
entry per byte.  Multi-byte header fields are read and written in
little-endian order, matching the packed in-memory layout of
`OpenF_BMPFileHeader` and `OpenF_BMPInfoHeader` that the C code
`fread`s / `fwrite`s directly (the layout documented in the spec).
32-bit `unsigned int` arithmetic of the C source is modelled with explicit
`% 4294967296`; 32-bit signed header fields are decoded by two's complement.

`openf_load_bmp` reads from a `FILE*`; here it consumes the byte stream of
that file and returns either the error code the C function returns or the
`OpenF_Image` it stores through `out_image`.  `openf_save_bmp` writes to a
`FILE*`; here it returns the byte stream the C function writes.
-/

namespace OpenF

/-- The `OpenF_Error` enumeration (openf.h, lines 31-45). -/
inductive OpenF_Error where
  | OK
  | NULL_ARG
  | OPEN_FAILED
  | SEEK_FAILED
  | READ_FAILED
  | WRITE_FAILED
  | MEM_ALLOC
  | INVALID_FORMAT
  | UNSUPPORTED
  | CLOSE_FAILED
  | FILE_EXISTS
  | FILE_NOT_FOUND
  | GENERAL_FAILURE
deriving DecidableEq

/-- The `OpenF_Image` struct (openf.h, lines 353-357): `width` and `height`
are `unsigned int` (so always `< 2^32` in C); `pixels` is the canonical
RGB 24-bit row-major bottom-up buffer of `width * height * 3` bytes. -/
structure OpenF_Image where
  width : Nat
  height : Nat
  pixels : List Nat
deriving DecidableEq

/-- Little-endian 16-bit value at byte offset `i` of the stream (how a
packed `unsigned short` struct field is laid out in the file). -/
def readU16 (data : List Nat) (i : Nat) : Nat :=
  data.getD i 0 + 256 * data.getD (i + 1) 0

/-- Little-endian 32-bit value at byte offset `i` of the stream (how a
packed `unsigned int` struct field is laid out in the file). -/
def readU32 (data : List Nat) (i : Nat) : Nat :=
  data.getD i 0 + 256 * data.getD (i + 1) 0 + 65536 * data.getD (i + 2) 0
    + 16777216 * data.getD (i + 3) 0

/-- Little-endian 32-bit signed (`int`) value at byte offset `i`,
two's complement. -/
def readI32 (data : List Nat) (i : Nat) : Int :=
  if readU32 data i < 2147483648 then (readU32 data i : Int)
  else (readU32 data i : Int) - 4294967296

/-- The two bytes a packed `unsigned short` field with value `v` occupies. -/
def u16le (v : Nat) : List Nat :=
  [v % 256, v / 256 % 256]

/-- The four bytes a packed `unsigned int` field with value `v % 2^32`
occupies (also used for `int` fields: a C cast of an out-of-range value to
`int`/`unsigned int` stores the value reduced mod `2^32`). -/
def u32le (v : Nat) : List Nat :=
  [v % 256, v / 256 % 256, v / 65536 % 256, v / 16777216 % 256]

/-- `size_t row_size = ((width * 3 + 3) / 4) * 4;` — identical line in
`openf_load_bmp` (openf.h line 396) and `openf_save_bmp` (line 467).
`width` is `unsigned int`, so `width * 3 + 3` is computed mod `2^32`. -/
def bmpRowSize (width : Nat) : Nat :=
  (width * 3 + 3) % 4294967296 / 4 * 4

/-- The inner `for (x…)` loop body of `openf_load_bmp` (lines 428-435):
from one stored row buffer, produce the `width * 3` canonical bytes of one
row, reordering each stored BGR triple to RGB
(`pixels[dst+0] = row[src+2]`, `… +1 = … +1`, `… +2 = … +0`). -/
def decodeRow (width : Nat) (row : List Nat) : List Nat :=
  (List.range width).flatMap fun x =>
    [row.getD (x * 3 + 2) 0, row.getD (x * 3 + 1) 0, row.getD (x * 3 + 0) 0]

/-- The row loop of `openf_load_bmp` (lines 420-436), written canonically:
the imperative loop walks stored rows `y` and writes each to canonical row
`target_y = top_down ? y : height - 1 - y`; since that map is an involution
on `[0, height)`, the resulting buffer is, canonical row by canonical row
`ty`, the decoded stored row `top_down ? ty : height - 1 - ty`. -/
def decodePixels (width height : Nat) (topDown : Bool) (rowAt : Nat → List Nat) : List Nat :=
  (List.range height).flatMap fun ty =>
    decodeRow width (rowAt (if topDown then ty else height - 1 - ty))

/-- `openf_load_bmp` (openf.h, lines 360-455) on the byte stream of the
file at `path`.  Faithful step by step: 14-byte file-header `fread` (short
read → `READ_FAILED`), `bfType` check (→ `INVALID_FORMAT`), 40-byte
info-header `fread` (short read → `READ_FAILED`), `biBitCount`/
`biCompression` check (→ `UNSUPPORTED`), `biWidth`/`biHeight` check
(→ `INVALID_FORMAT`), `fseek` to `bfOffBits` (always succeeds on a regular
file), then `height` reads of `row_size` bytes each starting at
`bfOffBits` (any short read → `READ_FAILED`). -/
def openf_load_bmp (data : List Nat) : Except OpenF_Error OpenF_Image :=
  if data.length < 14 then .error .READ_FAILED
  else if readU16 data 0 ≠ 19778 then .error .INVALID_FORMAT
  else if data.length < 54 then .error .READ_FAILED
  else if readU16 data 28 ≠ 24 ∨ readU32 data 30 ≠ 0 then .error .UNSUPPORTED
  else if readI32 data 18 ≤ 0 ∨ readI32 data 22 = 0 then .error .INVALID_FORMAT
  else if data.length < readU32 data 10
      + (readI32 data 22).natAbs * bmpRowSize (readI32 data 18).toNat then
    .error .READ_FAILED
  else
    .ok ⟨(readI32 data 18).toNat, (readI32 data 22).natAbs,
      decodePixels (readI32 data 18).toNat (readI32 data 22).natAbs
        (decide (readI32 data 22 < 0)) fun y =>
          (data.drop (readU32 data 10 + y * bmpRowSize (readI32 data 18).toNat)).take
            (bmpRowSize (readI32 data 18).toNat)⟩

/-- One output row of `openf_save_bmp` (lines 503-519): `row_data` is
zeroed to `rowSize` bytes, pixel `x` of canonical row `srcY` is written at
`x * 3` converting RGB to BGR (`row[dst+0] = pixels[src+2]`, …), and
exactly `rowSize` bytes are then written to the file.  The source index
`size_t src_idx = (src_y * width + x) * 3;` (line 508) is computed in
`unsigned int` arithmetic, hence reduced mod `2^32` before the widening
to `size_t`; the `+ 0/1/2` then happens in `size_t`.  For
`width * 3 ≤ rowSize` (always true absent 32-bit overflow in `row_size`)
the `take` is the identity. -/
def encodeRow (width rowSize : Nat) (pixels : List Nat) (srcY : Nat) : List Nat :=
  (((List.range width).flatMap fun x =>
      [pixels.getD ((srcY * width + x) * 3 % 4294967296 + 2) 0,
       pixels.getD ((srcY * width + x) * 3 % 4294967296 + 1) 0,
       pixels.getD ((srcY * width + x) * 3 % 4294967296 + 0) 0])
    ++ List.replicate (rowSize - width * 3) 0).take rowSize

/-- The 14 bytes of the `OpenF_BMPFileHeader` that `openf_save_bmp` writes
(lines 471-474 and 487): `bfType = 0x4D42`, `bfSize = (unsigned int)
(14 + 40 + row_size * height)`, reserved fields zero, `bfOffBits = 54`. -/
def bmpFileHeaderBytes (width height : Nat) : List Nat :=
  u16le 19778 ++ u32le (54 + bmpRowSize width * height) ++ u16le 0 ++ u16le 0 ++ u32le 54

/-- The 40 bytes of the `OpenF_BMPInfoHeader` that `openf_save_bmp` writes
(lines 476-485 and 492): `biSize = 40`, `biWidth = (int)width`,
`biHeight = (int)height`, `biPlanes = 1`, `biBitCount = 24`,
`biCompression = 0`, `biSizeImage = (unsigned int)(row_size * height)`,
resolutions and palette fields zero. -/
def bmpInfoHeaderBytes (width height : Nat) : List Nat :=
  u32le 40 ++ u32le width ++ u32le height ++ u16le 1 ++ u16le 24 ++ u32le 0
    ++ u32le (bmpRowSize width * height) ++ u32le 0 ++ u32le 0 ++ u32le 0 ++ u32le 0

/-- `openf_save_bmp` (openf.h, lines 458-528): the byte stream written for
`image` — both headers followed by the rows, physical row `y` taken from
canonical row `height - 1 - y` (line 505). -/
def openf_save_bmp (img : OpenF_Image) : List Nat :=
  bmpFileHeaderBytes img.width img.height ++ bmpInfoHeaderBytes img.width img.height
    ++ (List.range img.height).flatMap fun y =>
        encodeRow img.width (bmpRowSize img.width) img.pixels (img.height - 1 - y)

/-- Canonical row `r` of an image: bytes
`pixels[r * width * 3 … r * width * 3 + width * 3)` (statement helper). -/
def canonicalRow (img : OpenF_Image) (r : Nat) : List Nat :=
  (img.pixels.drop (r * (img.width * 3))).take (img.width * 3)

/-- The `row_size` bytes of the `i`-th physically stored pixel row of a BMP
byte stream, located where `openf_load_bmp`'s row loop reads them: at
`bfOffBits + i * row_size` (statement helper). -/
def loadStoredRow (data : List Nat) (i : Nat) : List Nat :=
  (data.drop (readU32 data 10 + i * bmpRowSize (readI32 data 18).toNat)).take
    (bmpRowSize (readI32 data 18).toNat)

/-- A hand-constructed 54-byte BMP header (statement helper, for
hand-built inputs as in the spec's test properties): signature "BM",
declared pixel-data offset `offBits`, 24 bits per pixel, compression 0,
the given width and height, every field `openf_load_bmp` ignores zero. -/
def mkBMPHeader (offBits w h : Nat) : List Nat :=
  u16le 19778 ++ u32le 0 ++ u16le 0 ++ u16le 0 ++ u32le offBits
    ++ u32le 40 ++ u32le w ++ u32le h ++ u16le 1 ++ u16le 24 ++ u32le 0
    ++ u32le 0 ++ u32le 0 ++ u32le 0 ++ u32le 0 ++ u32le 0

/-! ### Generic list lemmas -/

theorem getD_drop (l : List Nat) (n m : Nat) : (l.drop n).getD m 0 = l.getD (n + m) 0 := by
  simp [List.getD_eq_getElem?_getD, List.getElem?_drop]

theorem getD_take_of_lt (l : List Nat) {n m : Nat} (h : m < n) :
    (l.take n).getD m 0 = l.getD m 0 := by
  simp [List.getD_eq_getElem?_getD, List.getElem?_take_of_lt h]

theorem getD_replicate_of_lt {n m : Nat} (h : m < n) (a : Nat) :
    (List.replicate n a).getD m 0 = a := by
  simp [List.getD_eq_getElem?_getD, List.getElem?_replicate_of_lt h]

theorem drop_append_len (l₁ l₂ : List Nat) (i : Nat) :
    (l₁ ++ l₂).drop (l₁.length + i) = l₂.drop i := by
  rw [← List.drop_drop, List.drop_left]

/-- Length of a concatenation of `n` chunks of constant length `c`. -/
theorem length_flatMap_const (n c : Nat) (g : Nat → List Nat)
    (hg : ∀ j < n, (g j).length = c) :
    ((List.range n).flatMap g).length = n * c := by
  induction n with
  | zero => simp
  | succ k ih =>
    rw [List.range_succ, List.flatMap_append, List.length_append,
      ih (fun j hj => hg j (by omega))]
    simp only [List.flatMap_cons, List.flatMap_nil, List.append_nil]
    rw [hg k (by omega)]
    ring

/-- Extracting chunk `i` from a concatenation of `n` chunks of constant
length `c`. -/
theorem flatMap_drop_take (c : Nat) :
    ∀ (n : Nat) (g : Nat → List Nat), (∀ j < n, (g j).length = c) →
      ∀ i, i < n → (((List.range n).flatMap g).drop (i * c)).take c = g i := by
  intro n
  induction n with
  | zero => intro g hg i hi; omega
  | succ k ih =>
    intro g hg i hi
    rw [List.range_succ_eq_map, List.flatMap_cons, List.flatMap_map]
    cases i with
    | zero =>
      rw [Nat.zero_mul, List.drop_zero]
      exact List.take_left' (hg 0 (by omega))
    | succ j =>
      have hlen : (g 0).length = c := hg 0 (by omega)
      have hj : (j + 1) * c = (g 0).length + j * c := by rw [hlen]; ring
      rw [hj, drop_append_len]
      exact ih (fun x => g (x.succ)) (fun x hx => hg (x + 1) (by omega)) j (by omega)

/-- Byte `i * c + k` of a concatenation of chunks of constant length `c`
is byte `k` of chunk `i`. -/
theorem flatMap_getD (c n : Nat) (g : Nat → List Nat)
    (hg : ∀ j < n, (g j).length = c) (i k : Nat) (hi : i < n) (hk : k < c) :
    ((List.range n).flatMap g).getD (i * c + k) 0 = (g i).getD k 0 := by
  rw [← getD_drop, ← getD_take_of_lt _ hk, flatMap_drop_take c n g hg i hi]

theorem list_ext_getD {l₁ l₂ : List Nat} (hl : l₁.length = l₂.length)
    (h : ∀ n, n < l₁.length → l₁.getD n 0 = l₂.getD n 0) : l₁ = l₂ := by
  apply List.ext_getElem hl
  intro n h1 h2
  have hn := h n h1
  rwa [List.getD_eq_getElem _ _ h1, List.getD_eq_getElem _ _ h2] at hn

/-! ### Structure of the encoder's output -/

theorem encodeRow_length (w rs : Nat) (p : List Nat) (sy : Nat) :
    (encodeRow w rs p sy).length = rs := by
  have hflat := length_flatMap_const w 3 (fun x =>
    [p.getD ((sy * w + x) * 3 % 4294967296 + 2) 0,
     p.getD ((sy * w + x) * 3 % 4294967296 + 1) 0,
     p.getD ((sy * w + x) * 3 % 4294967296 + 0) 0]) (fun j _ => rfl)
  unfold encodeRow
  rw [List.length_take, List.length_append, List.length_replicate, hflat]
  omega

theorem bmpFileHeaderBytes_length (w h : Nat) : (bmpFileHeaderBytes w h).length = 14 := rfl

theorem bmpInfoHeaderBytes_length (w h : Nat) : (bmpInfoHeaderBytes w h).length = 40 := rfl

theorem mkBMPHeader_length (o w h : Nat) : (mkBMPHeader o w h).length = 54 := rfl

theorem save_length (img : OpenF_Image) :
    (openf_save_bmp img).length = 54 + img.height * bmpRowSize img.width := by
  unfold openf_save_bmp
  rw [List.length_append, List.length_append, bmpFileHeaderBytes_length,
    bmpInfoHeaderBytes_length,
    length_flatMap_const img.height (bmpRowSize img.width) _
      (fun j _ => encodeRow_length _ _ _ _)]

theorem save_drop_54 (img : OpenF_Image) (k : Nat) :
    (openf_save_bmp img).drop (54 + k)
      = ((List.range img.height).flatMap fun y =>
          encodeRow img.width (bmpRowSize img.width) img.pixels (img.height - 1 - y)).drop k := by
  unfold openf_save_bmp
  rw [List.append_assoc,
    show (54 : Nat) + k
        = (bmpFileHeaderBytes img.width img.height).length
          + ((bmpInfoHeaderBytes img.width img.height).length + k) by
      rw [bmpFileHeaderBytes_length, bmpInfoHeaderBytes_length]; omega,
    drop_append_len, drop_append_len]

theorem save_readU16_0 (img : OpenF_Image) : readU16 (openf_save_bmp img) 0 = 19778 := by
  norm_num [openf_save_bmp, bmpFileHeaderBytes, bmpInfoHeaderBytes, u16le, u32le,
    readU16, List.cons_append, List.getD_cons_succ, List.getD_cons_zero]

theorem save_readU32_2 (img : OpenF_Image) :
    readU32 (openf_save_bmp img) 2
      = (54 + bmpRowSize img.width * img.height) % 4294967296 := by
  norm_num [openf_save_bmp, bmpFileHeaderBytes, bmpInfoHeaderBytes, u16le, u32le,
    readU32, List.cons_append, List.getD_cons_succ, List.getD_cons_zero]
  generalize 54 + bmpRowSize img.width * img.height = v
  omega

theorem save_readU32_10 (img : OpenF_Image) : readU32 (openf_save_bmp img) 10 = 54 := by
  norm_num [openf_save_bmp, bmpFileHeaderBytes, bmpInfoHeaderBytes, u16le, u32le,
    readU32, List.cons_append, List.getD_cons_succ, List.getD_cons_zero]

theorem save_readU32_14 (img : OpenF_Image) : readU32 (openf_save_bmp img) 14 = 40 := by
  norm_num [openf_save_bmp, bmpFileHeaderBytes, bmpInfoHeaderBytes, u16le, u32le,
    readU32, List.cons_append, List.getD_cons_succ, List.getD_cons_zero]

theorem save_readU32_18 (img : OpenF_Image) :
    readU32 (openf_save_bmp img) 18 = img.width % 4294967296 := by
  norm_num [openf_save_bmp, bmpFileHeaderBytes, bmpInfoHeaderBytes, u16le, u32le,
    readU32, List.cons_append, List.getD_cons_succ, List.getD_cons_zero]
  omega

theorem save_readU32_22 (img : OpenF_Image) :
    readU32 (openf_save_bmp img) 22 = img.height % 4294967296 := by
  norm_num [openf_save_bmp, bmpFileHeaderBytes, bmpInfoHeaderBytes, u16le, u32le,
    readU32, List.cons_append, List.getD_cons_succ, List.getD_cons_zero]
  omega

theorem save_readU16_26 (img : OpenF_Image) : readU16 (openf_save_bmp img) 26 = 1 := by
  norm_num [openf_save_bmp, bmpFileHeaderBytes, bmpInfoHeaderBytes, u16le, u32le,
    readU16, List.cons_append, List.getD_cons_succ, List.getD_cons_zero]

theorem save_readU16_28 (img : OpenF_Image) : readU16 (openf_save_bmp img) 28 = 24 := by
  norm_num [openf_save_bmp, bmpFileHeaderBytes, bmpInfoHeaderBytes, u16le, u32le,
    readU16, List.cons_append, List.getD_cons_succ, List.getD_cons_zero]

theorem save_readU32_30 (img : OpenF_Image) : readU32 (openf_save_bmp img) 30 = 0 := by
  norm_num [openf_save_bmp, bmpFileHeaderBytes, bmpInfoHeaderBytes, u16le, u32le,
    readU32, List.cons_append, List.getD_cons_succ, List.getD_cons_zero]

theorem save_readU32_34 (img : OpenF_Image) :
    readU32 (openf_save_bmp img) 34 = bmpRowSize img.width * img.height % 4294967296 := by
  norm_num [openf_save_bmp, bmpFileHeaderBytes, bmpInfoHeaderBytes, u16le, u32le,
    readU32, List.cons_append, List.getD_cons_succ, List.getD_cons_zero]
  generalize bmpRowSize img.width * img.height = v
  omega

theorem save_readU32_38 (img : OpenF_Image) : readU32 (openf_save_bmp img) 38 = 0 := by
  norm_num [openf_save_bmp, bmpFileHeaderBytes, bmpInfoHeaderBytes, u16le, u32le,
    readU32, List.cons_append, List.getD_cons_succ, List.getD_cons_zero]

theorem save_readU32_42 (img : OpenF_Image) : readU32 (openf_save_bmp img) 42 = 0 := by
  norm_num [openf_save_bmp, bmpFileHeaderBytes, bmpInfoHeaderBytes, u16le, u32le,
    readU32, List.cons_append, List.getD_cons_succ, List.getD_cons_zero]

theorem save_readI32_18 (img : OpenF_Image) (hw : img.width < 2147483648) :
    readI32 (openf_save_bmp img) 18 = (img.width : Int) := by
  unfold readI32
  rw [save_readU32_18, Nat.mod_eq_of_lt (by omega), if_pos hw]

theorem save_readI32_22 (img : OpenF_Image) (hh : img.height < 2147483648) :
    readI32 (openf_save_bmp img) 22 = (img.height : Int) := by
  unfold readI32
  rw [save_readU32_22, Nat.mod_eq_of_lt (by omega), if_pos hh]

/-! ### Behaviour of the decoder -/

/-- When every validation step passes and the stream holds enough pixel
bytes, `openf_load_bmp` succeeds and returns exactly the image built by the
row loop. -/
theorem openf_load_bmp_eq_ok (data : List Nat)
    (hlen : 54 ≤ data.length)
    (hsig : readU16 data 0 = 19778)
    (hbpp : readU16 data 28 = 24)
    (hcomp : readU32 data 30 = 0)
    (hwpos : 0 < readI32 data 18)
    (hhne : readI32 data 22 ≠ 0)
    (hdata : readU32 data 10
      + (readI32 data 22).natAbs * bmpRowSize (readI32 data 18).toNat ≤ data.length) :
    openf_load_bmp data = .ok ⟨(readI32 data 18).toNat, (readI32 data 22).natAbs,
      decodePixels (readI32 data 18).toNat (readI32 data 22).natAbs
        (decide (readI32 data 22 < 0)) fun y =>
          (data.drop (readU32 data 10 + y * bmpRowSize (readI32 data 18).toNat)).take
            (bmpRowSize (readI32 data 18).toNat)⟩ := by
  unfold openf_load_bmp
  rw [if_neg (by omega), if_neg (by simp [hsig]), if_neg (by omega),
    if_neg (by simp [hbpp, hcomp]), if_neg (by push_neg; exact ⟨hwpos, hhne⟩),
    if_neg (Nat.not_lt.mpr hdata)]

/-- Conversely, success of `openf_load_bmp` pins down the returned image
(and that the dimension checks passed). -/
theorem openf_load_bmp_ok_inv {data : List Nat} {img : OpenF_Image}
    (h : openf_load_bmp data = .ok img) :
    0 < readI32 data 18 ∧ readI32 data 22 ≠ 0 ∧
    img = ⟨(readI32 data 18).toNat, (readI32 data 22).natAbs,
      decodePixels (readI32 data 18).toNat (readI32 data 22).natAbs
        (decide (readI32 data 22 < 0)) fun y =>
          (data.drop (readU32 data 10 + y * bmpRowSize (readI32 data 18).toNat)).take
            (bmpRowSize (readI32 data 18).toNat)⟩ := by
  unfold openf_load_bmp at h
  split at h
  · exact Except.noConfusion h
  split at h
  · exact Except.noConfusion h
  split at h
  · exact Except.noConfusion h
  split at h
  · exact Except.noConfusion h
  split at h
  · exact Except.noConfusion h
  split at h
  · exact Except.noConfusion h
  rename_i hdims _
  push_neg at hdims
  rw [Except.ok.injEq] at h
  exact ⟨hdims.1, hdims.2, h.symm⟩

theorem decodeRow_length (w : Nat) (row : List Nat) : (decodeRow w row).length = w * 3 :=
  length_flatMap_const w 3 _ (fun _ _ => rfl)

/-- Canonical row `r` of the decoded buffer is the decoded stored row
`topDown ? r : height - 1 - r`. -/
theorem decodePixels_row (w h : Nat) (td : Bool) (rowAt : Nat → List Nat) (r : Nat)
    (hr : r < h) :
    ((decodePixels w h td rowAt).drop (r * (w * 3))).take (w * 3)
      = decodeRow w (rowAt (if td then r else h - 1 - r)) := by
  unfold decodePixels
  exact flatMap_drop_take (w * 3) h _ (fun j _ => decodeRow_length w _) r hr

theorem decodePixels_congr {w h : Nat} {td : Bool} {f g : Nat → List Nat}
    (hfg : ∀ y, y < h → f y = g y) :
    decodePixels w h td f = decodePixels w h td g := by
  unfold decodePixels
  apply List.flatMap_congr
  intro ty hty
  have h1 : ty < h := List.mem_range.mp hty
  have h2 : (if td then ty else h - 1 - ty) < h := by
    cases td <;> simp <;> omega
  rw [hfg _ h2]

theorem decodePixels_false (w h : Nat) (f : Nat → List Nat) :
    decodePixels w h false f = (List.range h).flatMap fun ty => decodeRow w (f (h - 1 - ty)) :=
  rfl

theorem decodePixels_true (w h : Nat) (f : Nat → List Nat) :
    decodePixels w h true f = (List.range h).flatMap fun ty => decodeRow w (f ty) :=
  rfl

/-! ### Round trip -/

/-- Bytes `x * 3 + 0/1/2` of an encoded row are channels `2/1/0` of
canonical pixel `(srcY, x)` — the RGB→BGR reorder of the encoder. -/
theorem encodeRow_getD_0 (w rs : Nat) (p : List Nat) (sy x : Nat)
    (hx : x < w) (hrs : w * 3 ≤ rs) :
    (encodeRow w rs p sy).getD (x * 3 + 0) 0
      = p.getD ((sy * w + x) * 3 % 4294967296 + 2) 0 := by
  have hraw := length_flatMap_const w 3 (fun q =>
    [p.getD ((sy * w + q) * 3 % 4294967296 + 2) 0,
     p.getD ((sy * w + q) * 3 % 4294967296 + 1) 0,
     p.getD ((sy * w + q) * 3 % 4294967296 + 0) 0]) (fun _ _ => rfl)
  unfold encodeRow
  rw [getD_take_of_lt _ (show x * 3 + 0 < rs by omega),
    List.getD_append _ _ _ _ (by rw [hraw]; omega),
    flatMap_getD 3 w (fun q =>
      [p.getD ((sy * w + q) * 3 % 4294967296 + 2) 0,
       p.getD ((sy * w + q) * 3 % 4294967296 + 1) 0,
       p.getD ((sy * w + q) * 3 % 4294967296 + 0) 0]) (fun _ _ => rfl) x 0 hx (by omega)]
  rfl

theorem encodeRow_getD_1 (w rs : Nat) (p : List Nat) (sy x : Nat)
    (hx : x < w) (hrs : w * 3 ≤ rs) :
    (encodeRow w rs p sy).getD (x * 3 + 1) 0
      = p.getD ((sy * w + x) * 3 % 4294967296 + 1) 0 := by
  have hraw := length_flatMap_const w 3 (fun q =>
    [p.getD ((sy * w + q) * 3 % 4294967296 + 2) 0,
     p.getD ((sy * w + q) * 3 % 4294967296 + 1) 0,
     p.getD ((sy * w + q) * 3 % 4294967296 + 0) 0]) (fun _ _ => rfl)
  unfold encodeRow
  rw [getD_take_of_lt _ (show x * 3 + 1 < rs by omega),
    List.getD_append _ _ _ _ (by rw [hraw]; omega),
    flatMap_getD 3 w (fun q =>
      [p.getD ((sy * w + q) * 3 % 4294967296 + 2) 0,
       p.getD ((sy * w + q) * 3 % 4294967296 + 1) 0,
       p.getD ((sy * w + q) * 3 % 4294967296 + 0) 0]) (fun _ _ => rfl) x 1 hx (by omega)]
  rfl

theorem encodeRow_getD_2 (w rs : Nat) (p : List Nat) (sy x : Nat)
    (hx : x < w) (hrs : w * 3 ≤ rs) :
    (encodeRow w rs p sy).getD (x * 3 + 2) 0
      = p.getD ((sy * w + x) * 3 % 4294967296 + 0) 0 := by
  have hraw := length_flatMap_const w 3 (fun q =>
    [p.getD ((sy * w + q) * 3 % 4294967296 + 2) 0,
     p.getD ((sy * w + q) * 3 % 4294967296 + 1) 0,
     p.getD ((sy * w + q) * 3 % 4294967296 + 0) 0]) (fun _ _ => rfl)
  unfold encodeRow
  rw [getD_take_of_lt _ (show x * 3 + 2 < rs by omega),
    List.getD_append _ _ _ _ (by rw [hraw]; omega),
    flatMap_getD 3 w (fun q =>
      [p.getD ((sy * w + q) * 3 % 4294967296 + 2) 0,
       p.getD ((sy * w + q) * 3 % 4294967296 + 1) 0,
       p.getD ((sy * w + q) * 3 % 4294967296 + 0) 0]) (fun _ _ => rfl) x 2 hx (by omega)]
  rfl

/-- Decoding an encoded row recovers the canonical pixels of the source
row: the two BGR↔RGB reorders cancel. -/
theorem decodeRow_encodeRow (w rs : Nat) (p : List Nat) (sy k : Nat)
    (hk : k < w * 3) (hrs : w * 3 ≤ rs)
    (hno : (sy + 1) * (w * 3) ≤ 4294967296) :
    (decodeRow w (encodeRow w rs p sy)).getD k 0 = p.getD (sy * (w * 3) + k) 0 := by
  obtain ⟨x, c, hx, hc, rfl⟩ : ∃ x c, x < w ∧ c < 3 ∧ x * 3 + c = k :=
    ⟨k / 3, k % 3, by omega, by omega, by omega⟩
  have hb : (sy * w + x) * 3 < 4294967296 := by
    have h1 : (sy + 1) * w = sy * w + w := by ring
    have h2 : sy * w + x + 1 ≤ (sy + 1) * w := by omega
    have h3 : (sy * w + x + 1) * 3 ≤ (sy + 1) * w * 3 := Nat.mul_le_mul_right 3 h2
    have h4 : (sy + 1) * w * 3 = (sy + 1) * (w * 3) := by ring
    omega
  unfold decodeRow
  rw [flatMap_getD 3 w (fun q =>
    [(encodeRow w rs p sy).getD (q * 3 + 2) 0, (encodeRow w rs p sy).getD (q * 3 + 1) 0,
     (encodeRow w rs p sy).getD (q * 3 + 0) 0]) (fun _ _ => rfl) x c hx hc]
  interval_cases c
  · rw [show ([(encodeRow w rs p sy).getD (x * 3 + 2) 0,
        (encodeRow w rs p sy).getD (x * 3 + 1) 0,
        (encodeRow w rs p sy).getD (x * 3 + 0) 0].getD 0 0)
        = (encodeRow w rs p sy).getD (x * 3 + 2) 0 from rfl,
      encodeRow_getD_2 w rs p sy x hx hrs, Nat.mod_eq_of_lt hb]
    congr 1
    ring
  · rw [show ([(encodeRow w rs p sy).getD (x * 3 + 2) 0,
        (encodeRow w rs p sy).getD (x * 3 + 1) 0,
        (encodeRow w rs p sy).getD (x * 3 + 0) 0].getD 1 0)
        = (encodeRow w rs p sy).getD (x * 3 + 1) 0 from rfl,
      encodeRow_getD_1 w rs p sy x hx hrs, Nat.mod_eq_of_lt hb]
    congr 1
    ring
  · rw [show ([(encodeRow w rs p sy).getD (x * 3 + 2) 0,
        (encodeRow w rs p sy).getD (x * 3 + 1) 0,
        (encodeRow w rs p sy).getD (x * 3 + 0) 0].getD 2 0)
        = (encodeRow w rs p sy).getD (x * 3 + 0) 0 from rfl,
      encodeRow_getD_0 w rs p sy x hx hrs, Nat.mod_eq_of_lt hb]
    congr 1
    ring

/-- Decoding the concatenated encoded rows, row by row in the same order,
gives back the pixel buffer. -/
theorem decode_encode (w h rs : Nat) (pix : List Nat) (hw : 0 < w)
    (hrs : w * 3 ≤ rs) (hwh : h * (w * 3) ≤ 4294967296)
    (hpix : pix.length = w * h * 3) :
    ((List.range h).flatMap fun ty => decodeRow w (encodeRow w rs pix ty)) = pix := by
  have hlen3 : ∀ j, j < h → (decodeRow w (encodeRow w rs pix j)).length = w * 3 :=
    fun j _ => decodeRow_length w _
  apply list_ext_getD
  · rw [length_flatMap_const h (w * 3) _ hlen3, hpix]
    ring
  · intro n hn
    rw [length_flatMap_const h (w * 3) _ hlen3] at hn
    have hw3 : 0 < w * 3 := by omega
    obtain ⟨ty, r, hty, hr, rfl⟩ : ∃ ty r, ty < h ∧ r < w * 3 ∧ ty * (w * 3) + r = n := by
      refine ⟨n / (w * 3), n % (w * 3), (Nat.div_lt_iff_lt_mul hw3).mpr hn,
        Nat.mod_lt _ hw3, ?_⟩
      calc n / (w * 3) * (w * 3) + n % (w * 3)
          = (w * 3) * (n / (w * 3)) + n % (w * 3) := by
            rw [Nat.mul_comm (n / (w * 3)) (w * 3)]
        _ = n := Nat.div_add_mod n (w * 3)
    rw [flatMap_getD (w * 3) h _ hlen3 ty r hty hr,
      decodeRow_encodeRow w rs pix ty r hr hrs (by
        have h1 := Nat.mul_le_mul_right (w * 3) (show ty + 1 ≤ h by omega)
        omega)]

/-- **C1.** For every Image with width and height each in `[1, 4096]` and
pixel buffer of exactly `width * height * 3` bytes, encoding with
`openf_save_bmp` and decoding the resulting byte stream with
`openf_load_bmp` succeeds and yields an image with the original width and
height and a byte-for-byte identical pixel buffer. -/
theorem C1_save_load_roundtrip (w h : Nat) (pix : List Nat)
    (hw1 : 1 ≤ w) (hw2 : w ≤ 4096) (hh1 : 1 ≤ h) (hh2 : h ≤ 4096)
    (hpix : pix.length = w * h * 3) :
    openf_load_bmp (openf_save_bmp ⟨w, h, pix⟩) = .ok ⟨w, h, pix⟩ := by
  have hrs_eq : bmpRowSize w = (w * 3 + 3) / 4 * 4 := by
    unfold bmpRowSize
    rw [Nat.mod_eq_of_lt (by omega)]
  have hrsge : w * 3 ≤ bmpRowSize w := by rw [hrs_eq]; omega
  have h18 : readI32 (openf_save_bmp ⟨w, h, pix⟩) 18 = (w : Int) :=
    save_readI32_18 ⟨w, h, pix⟩ (show w < 2147483648 by omega)
  have h22 : readI32 (openf_save_bmp ⟨w, h, pix⟩) 22 = (h : Int) :=
    save_readI32_22 ⟨w, h, pix⟩ (show h < 2147483648 by omega)
  have hlen : (openf_save_bmp ⟨w, h, pix⟩).length = 54 + h * bmpRowSize w :=
    save_length ⟨w, h, pix⟩
  have hdec : decide ((h : Int) < 0) = false := by
    rw [decide_eq_false_iff_not]
    omega
  rw [openf_load_bmp_eq_ok (openf_save_bmp ⟨w, h, pix⟩)
    (by rw [hlen]; omega)
    (save_readU16_0 _) (save_readU16_28 _) (save_readU32_30 _)
    (by rw [h18]; omega)
    (by rw [h22]; omega)
    (by rw [save_readU32_10, h18, h22, hlen]
        simp only [Int.toNat_ofNat, Int.natAbs_ofNat]
        omega)]
  rw [h18, h22, save_readU32_10, hdec]
  simp only [Int.toNat_ofNat, Int.natAbs_ofNat, Except.ok.injEq, OpenF_Image.mk.injEq]
  refine ⟨trivial, trivial, ?_⟩
  have hrowAt : ∀ y, y < h →
      ((openf_save_bmp ⟨w, h, pix⟩).drop (54 + y * bmpRowSize w)).take (bmpRowSize w)
        = encodeRow w (bmpRowSize w) pix (h - 1 - y) := by
    intro y hy
    rw [save_drop_54 ⟨w, h, pix⟩ (y * bmpRowSize w)]
    exact flatMap_drop_take (bmpRowSize w) h _ (fun j _ => encodeRow_length _ _ _ _) y hy
  rw [decodePixels_congr hrowAt, decodePixels_false]
  have hsy : ∀ ty ∈ List.range h,
      decodeRow w (encodeRow w (bmpRowSize w) pix (h - 1 - (h - 1 - ty)))
        = decodeRow w (encodeRow w (bmpRowSize w) pix ty) := by
    intro ty hty
    have h1 := List.mem_range.mp hty
    rw [show h - 1 - (h - 1 - ty) = ty by omega]
  rw [List.flatMap_congr hsy]
  exact decode_encode w h (bmpRowSize w) pix (by omega) hrsge
    (by
      have hb := Nat.mul_le_mul hh2 (Nat.mul_le_mul_right 3 hw2)
      omega)
    hpix

/-- **C1 witness.**  A concrete 2×2 image round-trips byte-for-byte. -/
theorem C1_witness :
    openf_load_bmp (openf_save_bmp ⟨2, 2, [1, 2, 3, 4, 5, 6, 7, 8, 9, 10, 11, 12]⟩)
      = .ok ⟨2, 2, [1, 2, 3, 4, 5, 6, 7, 8, 9, 10, 11, 12]⟩ :=
  C1_save_load_roundtrip 2 2 [1, 2, 3, 4, 5, 6, 7, 8, 9, 10, 11, 12]
    (by norm_num) (by norm_num) (by norm_num) (by norm_num) (by norm_num)

/-! ### Per-row and per-pixel decoder/encoder facts -/

/-- Channel `c` of canonical pixel `(ty, x)` of the decoded buffer is byte
`x * 3 + (2 - c)` of the stored row the canonical row `ty` came from. -/
theorem decodePixels_getD (w h : Nat) (td : Bool) (rowAt : Nat → List Nat) (ty x c : Nat)
    (hty : ty < h) (hx : x < w) (hc : c < 3) :
    (decodePixels w h td rowAt).getD ((ty * w + x) * 3 + c) 0
      = (rowAt (if td then ty else h - 1 - ty)).getD (x * 3 + (2 - c)) 0 := by
  unfold decodePixels
  rw [show (ty * w + x) * 3 + c = ty * (w * 3) + (x * 3 + c) from by ring]
  rw [flatMap_getD (w * 3) h (fun t => decodeRow w (rowAt (if td then t else h - 1 - t)))
    (fun j _ => decodeRow_length w _) ty (x * 3 + c) hty (by omega)]
  generalize rowAt (if td then ty else h - 1 - ty) = row
  unfold decodeRow
  rw [flatMap_getD 3 w (fun q => [row.getD (q * 3 + 2) 0, row.getD (q * 3 + 1) 0,
    row.getD (q * 3 + 0) 0]) (fun _ _ => rfl) x c hx hc]
  interval_cases c <;> rfl

/-- Byte `54 + m` of the encoder's output is byte `m` of the concatenated
encoded rows. -/
theorem save_getD_rows (img : OpenF_Image) (m : Nat) :
    (openf_save_bmp img).getD (54 + m) 0
      = ((List.range img.height).flatMap fun y =>
          encodeRow img.width (bmpRowSize img.width) img.pixels (img.height - 1 - y)).getD m 0 := by
  have h := save_drop_54 img 0
  norm_num at h
  rw [← getD_drop, h]

/-- **C2.** For every input that `openf_load_bmp` decodes successfully,
the `i`-th physically stored row (the `row_size` bytes at
`bfOffBits + i * row_size`) is the one written — channel-swapped — to
canonical row `i` when the stored height is negative (top-down), and to
canonical row `height_magnitude - 1 - i` when it is positive (bottom-up). -/
theorem C2_row_destination (data : List Nat) (img : OpenF_Image)
    (hload : openf_load_bmp data = .ok img) (i : Nat) (hi : i < img.height) :
    canonicalRow img (if readI32 data 22 < 0 then i else img.height - 1 - i)
      = decodeRow img.width (loadStoredRow data i) := by
  obtain ⟨hw, hh, rfl⟩ := openf_load_bmp_ok_inv hload
  have hi' : i < (readI32 data 22).natAbs := hi
  unfold canonicalRow loadStoredRow
  by_cases hsign : readI32 data 22 < 0
  · rw [if_pos hsign]
    rw [show ((⟨(readI32 data 18).toNat, (readI32 data 22).natAbs,
        decodePixels (readI32 data 18).toNat (readI32 data 22).natAbs
          (decide (readI32 data 22 < 0)) fun y =>
            (data.drop (readU32 data 10 + y * bmpRowSize (readI32 data 18).toNat)).take
              (bmpRowSize (readI32 data 18).toNat)⟩ : OpenF_Image)).pixels
        = decodePixels (readI32 data 18).toNat (readI32 data 22).natAbs
            (decide (readI32 data 22 < 0)) (fun y =>
              (data.drop (readU32 data 10 + y * bmpRowSize (readI32 data 18).toNat)).take
                (bmpRowSize (readI32 data 18).toNat)) from rfl]
    rw [decodePixels_row _ _ _ _ i hi']
    rw [if_pos (by exact decide_eq_true hsign)]
  · rw [if_neg hsign]
    rw [show ((⟨(readI32 data 18).toNat, (readI32 data 22).natAbs,
        decodePixels (readI32 data 18).toNat (readI32 data 22).natAbs
          (decide (readI32 data 22 < 0)) fun y =>
            (data.drop (readU32 data 10 + y * bmpRowSize (readI32 data 18).toNat)).take
              (bmpRowSize (readI32 data 18).toNat)⟩ : OpenF_Image)).pixels
        = decodePixels (readI32 data 18).toNat (readI32 data 22).natAbs
            (decide (readI32 data 22 < 0)) (fun y =>
              (data.drop (readU32 data 10 + y * bmpRowSize (readI32 data 18).toNat)).take
                (bmpRowSize (readI32 data 18).toNat)) from rfl]
    rw [decodePixels_row _ _ _ _ ((readI32 data 22).natAbs - 1 - i) (by omega)]
    rw [if_neg (by simp [hsign])]
    rw [show (readI32 data 22).natAbs - 1 - ((readI32 data 22).natAbs - 1 - i) = i from by
      omega]

/-- **C2 witness.**  A 1×2 bottom-up BMP produced by the encoder: stored
row 0 lands at canonical row `2 - 1 - 0 = 1`. -/
theorem C2_witness :
    canonicalRow ⟨1, 2, [1, 2, 3, 4, 5, 6]⟩ 1
      = decodeRow 1 (loadStoredRow (openf_save_bmp ⟨1, 2, [1, 2, 3, 4, 5, 6]⟩) 0) :=
  C2_row_destination (openf_save_bmp ⟨1, 2, [1, 2, 3, 4, 5, 6]⟩) ⟨1, 2, [1, 2, 3, 4, 5, 6]⟩
    (by rfl) 0 (by decide)

/-- **C3 counterexample.**  The encoder's source pixel index
`size_t src_idx = (src_y * width + x) * 3;` (openf.h line 508) is
computed in 32-bit `unsigned int` arithmetic.  Take the image of width 3
and height `2^32 - 1` (both valid `unsigned int` values) with a pixel
buffer of exactly `width * height * 3 = 38654705655` bytes: all zero
except bytes 4294967278-4294967280, which are 7.  For physical output
row 0, pixel 0, the source row is canonical row 4294967294 and the claim
says output byte 0 (stream offset 54) is that pixel's channel 2, the 0
at buffer offset `(4294967294 * 3 + 0) * 3 + 2 = 38654705648`; the code
reads the wrapped offset `… mod 2^32 + 2 = 4294967280` instead and emits
7.  So the claimed per-pixel inverse reordering fails on this in-range,
defined-behavior input. -/
theorem C3_counterexample :
    (List.replicate 4294967278 0 ++ [7, 7, 7] ++ List.replicate 34359738374 0).length
        = 3 * 4294967295 * 3
  ∧ (openf_save_bmp ⟨3, 4294967295,
        List.replicate 4294967278 0 ++ [7, 7, 7] ++ List.replicate 34359738374 0⟩).getD 54 0
      = 7
  ∧ (List.replicate 4294967278 0 ++ [7, 7, 7]
        ++ List.replicate 34359738374 0).getD (((4294967295 - 1 - 0) * 3 + 0) * 3 + 2) 0
      = 0
  ∧ (7 : Nat) ≠ 0 := by
  refine ⟨?_, ?_, ?_, by norm_num⟩
  · rw [List.length_append, List.length_append, List.length_replicate,
      List.length_replicate]
    rfl
  · have hchain : (openf_save_bmp ⟨3, 4294967295,
        List.replicate 4294967278 0 ++ [7, 7, 7] ++ List.replicate 34359738374 0⟩).getD 54 0
        = (List.replicate 4294967278 0 ++ [7, 7, 7]
            ++ List.replicate 34359738374 0).getD 4294967280 0 := by
      have h1 : (openf_save_bmp ⟨3, 4294967295,
          List.replicate 4294967278 0 ++ [7, 7, 7] ++ List.replicate 34359738374 0⟩).getD
            (54 + 0) 0
          = ((List.range (4294967295 : Nat)).flatMap fun y =>
              encodeRow 3 12
                (List.replicate 4294967278 0 ++ [7, 7, 7] ++ List.replicate 34359738374 0)
                (4294967295 - 1 - y)).getD 0 0 :=
        save_getD_rows ⟨3, 4294967295,
          List.replicate 4294967278 0 ++ [7, 7, 7] ++ List.replicate 34359738374 0⟩ 0
      have h2 : ((List.range (4294967295 : Nat)).flatMap fun y =>
            encodeRow 3 12
              (List.replicate 4294967278 0 ++ [7, 7, 7] ++ List.replicate 34359738374 0)
              (4294967295 - 1 - y)).getD (0 * 12 + 0) 0
          = (encodeRow 3 12
              (List.replicate 4294967278 0 ++ [7, 7, 7] ++ List.replicate 34359738374 0)
              (4294967295 - 1 - 0)).getD 0 0 :=
        flatMap_getD 12 4294967295 _ (fun j _ => encodeRow_length _ _ _ _) 0 0
          (by norm_num) (by norm_num)
      have h3 : (encodeRow 3 12
            (List.replicate 4294967278 0 ++ [7, 7, 7] ++ List.replicate 34359738374 0)
            4294967294).getD (0 * 3 + 0) 0
          = (List.replicate 4294967278 0 ++ [7, 7, 7]
              ++ List.replicate 34359738374 0).getD
                ((4294967294 * 3 + 0) * 3 % 4294967296 + 2) 0 :=
        encodeRow_getD_0 3 12 _ 4294967294 0 (by norm_num) (by norm_num)
      have h4 := (h1.trans h2).trans h3
      rw [show (4294967294 * 3 + 0) * 3 % 4294967296 + 2 = 4294967280 from by norm_num] at h4
      exact h4
    rw [hchain, List.getD_append _ _ _ _ (by
        rw [List.length_append, List.length_replicate]
        norm_num),
      List.getD_append_right _ _ _ _ (by
        rw [List.length_replicate]
        norm_num),
      List.length_replicate,
      show (4294967280 : Nat) - 4294967278 = 2 from by norm_num]
    rfl
  · rw [show ((4294967295 - 1 - 0) * 3 + 0) * 3 + 2 = 38654705648 from by norm_num,
      List.getD_append_right _ _ _ _ (by
        rw [List.length_append, List.length_replicate]
        norm_num),
      List.length_append, List.length_replicate,
      show (38654705648 : Nat) - (4294967278 + [7, 7, 7].length) = 34359738367 from by rfl]
    exact getD_replicate_of_lt (by norm_num) 0

/-- **C3 (amended).** Channel swap, both directions.  Decode (as
claimed): for every successfully decoded input and every pixel `(ty, x)`,
canonical byte 0 is stored byte 2, byte 1 is stored byte 1, byte 2 is
stored byte 0 of that pixel's BGR triple in the stored row canonical row
`ty` came from.  Encode: byte `x * 3 + 0/1/2` of pixel `x` in physical
output row `y` (at stream offset `54 + y * row_size`) is channel `2/1/0`
of canonical pixel `(height - 1 - y, x)` — provided the pixel's buffer
offset `((height-1-y)*width + x) * 3` stays below `2^32`, which holds
whenever `width * height * 3 ≤ 2^32`; beyond that the `unsigned int`
source-index computation wraps (the counterexample).  The bound
`width * 3 ≤ row_size` always holds when `row_size` does not overflow
32 bits, i.e. for every width ≤ 1431655764. -/
theorem C3_channel_swap_amended :
    (∀ (data : List Nat) (img : OpenF_Image), openf_load_bmp data = .ok img →
      ∀ ty x, ty < img.height → x < img.width →
        img.pixels.getD ((ty * img.width + x) * 3 + 0) 0
            = (loadStoredRow data
                (if readI32 data 22 < 0 then ty else img.height - 1 - ty)).getD (x * 3 + 2) 0
          ∧ img.pixels.getD ((ty * img.width + x) * 3 + 1) 0
            = (loadStoredRow data
                (if readI32 data 22 < 0 then ty else img.height - 1 - ty)).getD (x * 3 + 1) 0
          ∧ img.pixels.getD ((ty * img.width + x) * 3 + 2) 0
            = (loadStoredRow data
                (if readI32 data 22 < 0 then ty else img.height - 1 - ty)).getD (x * 3 + 0) 0)
  ∧ (∀ (img : OpenF_Image), img.width * 3 ≤ bmpRowSize img.width →
      ∀ y x, y < img.height → x < img.width →
        ((img.height - 1 - y) * img.width + x) * 3 < 4294967296 →
        (openf_save_bmp img).getD (54 + (y * bmpRowSize img.width + (x * 3 + 0))) 0
            = img.pixels.getD (((img.height - 1 - y) * img.width + x) * 3 + 2) 0
          ∧ (openf_save_bmp img).getD (54 + (y * bmpRowSize img.width + (x * 3 + 1))) 0
            = img.pixels.getD (((img.height - 1 - y) * img.width + x) * 3 + 1) 0
          ∧ (openf_save_bmp img).getD (54 + (y * bmpRowSize img.width + (x * 3 + 2))) 0
            = img.pixels.getD (((img.height - 1 - y) * img.width + x) * 3 + 0) 0) := by
  constructor
  · intro data img hload ty x hty hx
    obtain ⟨hw, hh, rfl⟩ := openf_load_bmp_ok_inv hload
    have hty2 : ty < (readI32 data 22).natAbs := hty
    have hx2 : x < (readI32 data 18).toNat := hx
    unfold loadStoredRow
    refine ⟨?_, ?_, ?_⟩
    · have h := decodePixels_getD (readI32 data 18).toNat (readI32 data 22).natAbs
        (decide (readI32 data 22 < 0))
        (fun y => (data.drop (readU32 data 10 + y * bmpRowSize (readI32 data 18).toNat)).take
          (bmpRowSize (readI32 data 18).toNat)) ty x 0 hty2 hx2 (by omega)
      rw [show (if decide (readI32 data 22 < 0) = true then ty
          else (readI32 data 22).natAbs - 1 - ty)
          = (if readI32 data 22 < 0 then ty else (readI32 data 22).natAbs - 1 - ty) from by
        by_cases hs : readI32 data 22 < 0 <;> simp [hs]] at h
      exact h
    · have h := decodePixels_getD (readI32 data 18).toNat (readI32 data 22).natAbs
        (decide (readI32 data 22 < 0))
        (fun y => (data.drop (readU32 data 10 + y * bmpRowSize (readI32 data 18).toNat)).take
          (bmpRowSize (readI32 data 18).toNat)) ty x 1 hty2 hx2 (by omega)
      rw [show (if decide (readI32 data 22 < 0) = true then ty
          else (readI32 data 22).natAbs - 1 - ty)
          = (if readI32 data 22 < 0 then ty else (readI32 data 22).natAbs - 1 - ty) from by
        by_cases hs : readI32 data 22 < 0 <;> simp [hs]] at h
      exact h
    · have h := decodePixels_getD (readI32 data 18).toNat (readI32 data 22).natAbs
        (decide (readI32 data 22 < 0))
        (fun y => (data.drop (readU32 data 10 + y * bmpRowSize (readI32 data 18).toNat)).take
          (bmpRowSize (readI32 data 18).toNat)) ty x 2 hty2 hx2 (by omega)
      rw [show (if decide (readI32 data 22 < 0) = true then ty
          else (readI32 data 22).natAbs - 1 - ty)
          = (if readI32 data 22 < 0 then ty else (readI32 data 22).natAbs - 1 - ty) from by
        by_cases hs : readI32 data 22 < 0 <;> simp [hs]] at h
      exact h
  · intro img hrs y x hy hx hnw
    refine ⟨?_, ?_, ?_⟩
    · rw [save_getD_rows img (y * bmpRowSize img.width + (x * 3 + 0)),
        flatMap_getD (bmpRowSize img.width) img.height _
          (fun j _ => encodeRow_length _ _ _ _) y (x * 3 + 0) hy (by omega),
        encodeRow_getD_0 img.width (bmpRowSize img.width) img.pixels
          (img.height - 1 - y) x hx hrs,
        Nat.mod_eq_of_lt hnw]
    · rw [save_getD_rows img (y * bmpRowSize img.width + (x * 3 + 1)),
        flatMap_getD (bmpRowSize img.width) img.height _
          (fun j _ => encodeRow_length _ _ _ _) y (x * 3 + 1) hy (by omega),
        encodeRow_getD_1 img.width (bmpRowSize img.width) img.pixels
          (img.height - 1 - y) x hx hrs,
        Nat.mod_eq_of_lt hnw]
    · rw [save_getD_rows img (y * bmpRowSize img.width + (x * 3 + 2)),
        flatMap_getD (bmpRowSize img.width) img.height _
          (fun j _ => encodeRow_length _ _ _ _) y (x * 3 + 2) hy (by omega),
        encodeRow_getD_2 img.width (bmpRowSize img.width) img.pixels
          (img.height - 1 - y) x hx hrs,
        Nat.mod_eq_of_lt hnw]

/-- **C3 witness.**  The claim's single-pixel instances: a BMP whose
on-disk pixel bytes are `[0x10, 0x20, 0x30]` decodes to canonical
`[0x30, 0x20, 0x10]`, and encoding the pixel `[0x30, 0x20, 0x10]` stores
bytes `[0x10, 0x20, 0x30]` at offset 54. -/
theorem C3_witness :
    openf_load_bmp (mkBMPHeader 54 1 1 ++ [16, 32, 48, 0]) = .ok ⟨1, 1, [48, 32, 16]⟩
  ∧ (OpenF_Image.pixels ⟨1, 1, [48, 32, 16]⟩).getD 0 0
      = (loadStoredRow (mkBMPHeader 54 1 1 ++ [16, 32, 48, 0]) 0).getD 2 0
  ∧ (openf_save_bmp ⟨1, 1, [48, 32, 16]⟩).getD 54 0 = 16
  ∧ (openf_save_bmp ⟨1, 1, [48, 32, 16]⟩).getD 55 0 = 32
  ∧ (openf_save_bmp ⟨1, 1, [48, 32, 16]⟩).getD 56 0 = 48 :=
  ⟨by rfl,
   (C3_channel_swap_amended.1 (mkBMPHeader 54 1 1 ++ [16, 32, 48, 0]) ⟨1, 1, [48, 32, 16]⟩
     (by rfl) 0 0 (by decide) (by decide)).1,
   (C3_channel_swap_amended.2 ⟨1, 1, [48, 32, 16]⟩ (by decide) 0 0 (by decide) (by decide)
     (by decide)).1,
   (C3_channel_swap_amended.2 ⟨1, 1, [48, 32, 16]⟩ (by decide) 0 0 (by decide) (by decide)
     (by decide)).2.1,
   (C3_channel_swap_amended.2 ⟨1, 1, [48, 32, 16]⟩ (by decide) 0 0 (by decide) (by decide)
     (by decide)).2.2⟩

/-! ### Row stride (C4) -/

/-- **C4 counterexample.**  The claim "for every positive width the stride
equals `ceil(width*3/4)*4`" fails: `width * 3 + 3` is computed in 32-bit
`unsigned int` arithmetic, so at width 1431655765 (`3w+3 = 2^32 + 2`
wraps to 2) the code's stride is 0, not `ceil(width*3/4)*4 = 2^32`. -/
theorem C4_counterexample :
    bmpRowSize 1431655765 = 0 ∧ (1431655765 * 3 + 3) / 4 * 4 = 4294967296
      ∧ bmpRowSize 1431655765 ≠ (1431655765 * 3 + 3) / 4 * 4 := by
  refine ⟨by norm_num [bmpRowSize], by norm_num, by norm_num [bmpRowSize]⟩

/-- **C4 (amended).**  For every positive width with `width*3+3 < 2^32`
(every width ≤ 1431655764), the row stride shared by decoder and encoder
(`bmpRowSize`, the identical expression at openf.h lines 396 and 467)
equals `ceil(width*3/4)*4 = (width*3+3)/4*4`: `width*3` rounded up to the
next multiple of 4 regardless of width parity. -/
theorem C4_rowSize_amended (w : Nat) (h0 : 0 < w) (hov : w * 3 + 3 < 4294967296) :
    bmpRowSize w = (w * 3 + 3) / 4 * 4
      ∧ w * 3 ≤ bmpRowSize w ∧ bmpRowSize w < w * 3 + 4 ∧ bmpRowSize w % 4 = 0 := by
  unfold bmpRowSize
  rw [Nat.mod_eq_of_lt hov]
  omega

/-- **C4 witness.**  Width 5: stride 16, as the claim's particular cases
state (`bmpRowSize 1 = 4` and `bmpRowSize 4 = 12` also evaluate). -/
theorem C4_witness :
    bmpRowSize 5 = (5 * 3 + 3) / 4 * 4 ∧ 5 * 3 ≤ bmpRowSize 5
      ∧ bmpRowSize 5 < 5 * 3 + 4 ∧ bmpRowSize 5 % 4 = 0 :=
  C4_rowSize_amended 5 (by norm_num) (by norm_num)

/-! ### Header validation errors (C5, C6, C7, C10) -/

/-- **C5 counterexample.**  The claim says an input with fewer than 14
bytes fails with `InvalidFormat`; the code's first `fread` of the file
header returns short, and `openf_load_bmp` returns `READ_FAILED`
(openf.h lines 367-370), not `INVALID_FORMAT`. -/
theorem C5_counterexample :
    (List.replicate 13 66).length < 14
      ∧ openf_load_bmp (List.replicate 13 66) = .error .READ_FAILED
      ∧ OpenF_Error.READ_FAILED ≠ OpenF_Error.INVALID_FORMAT := by
  refine ⟨by norm_num, by rfl, by decide⟩

/-- **C5 (amended).**  Fewer than 14 bytes fail with `ReadFailed`; a
stream of at least 14 bytes whose first two bytes are not ASCII "BM"
(66, 77) fails with `InvalidFormat`. -/
theorem C5_signature_amended (data : List Nat) :
    (data.length < 14 → openf_load_bmp data = .error .READ_FAILED)
    ∧ (14 ≤ data.length → (∀ b ∈ data, b < 256) →
        ¬(data.getD 0 0 = 66 ∧ data.getD 1 0 = 77) →
        openf_load_bmp data = .error .INVALID_FORMAT) := by
  have hmem : ∀ i, i < data.length → data.getD i 0 ∈ data := by
    intro i hi
    rw [List.getD_eq_getElem _ _ hi]
    exact List.getElem_mem hi
  constructor
  · intro h
    unfold openf_load_bmp
    rw [if_pos h]
  · intro hlen hbytes hsig
    unfold openf_load_bmp
    rw [if_neg (by omega), if_pos (show readU16 data 0 ≠ 19778 from by
      unfold readU16
      simp only [Nat.zero_add]
      have h0 := hbytes _ (hmem 0 (by omega))
      have h1 := hbytes _ (hmem 1 (by omega))
      have hd : data.getD 0 0 ≠ 66 ∨ data.getD 1 0 ≠ 77 := by
        by_cases hc : data.getD 0 0 = 66
        · exact Or.inr fun hc2 => hsig ⟨hc, hc2⟩
        · exact Or.inl hc
      rcases hd with h | h <;> omega)]

/-- **C5 witness.**  A 13-byte stream gives `ReadFailed`; a 20-byte
all-zero stream (signature ≠ "BM") gives `InvalidFormat`. -/
theorem C5_witness :
    openf_load_bmp (List.replicate 13 0) = .error .READ_FAILED
      ∧ openf_load_bmp (List.replicate 20 0) = .error .INVALID_FORMAT :=
  ⟨(C5_signature_amended (List.replicate 13 0)).1 (by norm_num),
   (C5_signature_amended (List.replicate 20 0)).2 (by norm_num) (by decide) (by decide)⟩

/-- **C6.**  Any input whose headers parse (≥ 54 bytes, signature "BM")
with bits-per-pixel ≠ 24 or compression ≠ 0 fails with `Unsupported`.
No hypothesis constrains the width/height fields, so the result is
`UNSUPPORTED` even when they are invalid too: the bit-depth/compression
check precedes the dimension validation (openf.h lines 383-391). -/
theorem C6_unsupported (data : List Nat) (hlen : 54 ≤ data.length)
    (hsig : readU16 data 0 = 19778)
    (hbad : readU16 data 28 ≠ 24 ∨ readU32 data 30 ≠ 0) :
    openf_load_bmp data = .error .UNSUPPORTED := by
  unfold openf_load_bmp
  rw [if_neg (by omega), if_neg (by simp [hsig]), if_neg (by omega), if_pos hbad]

/-- **C6 witness.**  54 bytes, valid signature, bits-per-pixel 0 ≠ 24 —
and width 0 and height 0, which would be `InvalidFormat`: the result is
nevertheless `UNSUPPORTED`. -/
theorem C6_witness :
    openf_load_bmp (u16le 19778 ++ List.replicate 52 0) = .error .UNSUPPORTED :=
  C6_unsupported (u16le 19778 ++ List.replicate 52 0) (by decide) (by decide)
    (Or.inl (by decide))

/-- **C7.**  For inputs that pass the signature and the
bit-depth/compression checks, `openf_load_bmp` returns `InvalidFormat`
exactly when the stored width ≤ 0 or the stored height = 0; and a
negative stored height is accepted: with enough pixel bytes decoding
succeeds with height magnitude `|height|`. -/
theorem C7_dimension_validation (data : List Nat) (hlen : 54 ≤ data.length)
    (hsig : readU16 data 0 = 19778)
    (hbpp : readU16 data 28 = 24) (hcomp : readU32 data 30 = 0) :
    (openf_load_bmp data = .error .INVALID_FORMAT
        ↔ readI32 data 18 ≤ 0 ∨ readI32 data 22 = 0)
    ∧ (readI32 data 22 < 0 → 0 < readI32 data 18 →
        readU32 data 10 + (readI32 data 22).natAbs * bmpRowSize (readI32 data 18).toNat
            ≤ data.length →
        ∃ img, openf_load_bmp data = .ok img
          ∧ img.height = (readI32 data 22).natAbs) := by
  constructor
  · constructor
    · intro herr
      by_contra hdims
      push_neg at hdims
      unfold openf_load_bmp at herr
      rw [if_neg (by omega), if_neg (by simp [hsig]), if_neg (by omega),
        if_neg (by simp [hbpp, hcomp]), if_neg (by push_neg; exact hdims)] at herr
      split at herr
      · injection herr with herr2
        exact OpenF_Error.noConfusion herr2
      · exact Except.noConfusion herr
    · intro hdims
      unfold openf_load_bmp
      rw [if_neg (by omega), if_neg (by simp [hsig]), if_neg (by omega),
        if_neg (by simp [hbpp, hcomp]), if_pos hdims]
  · intro hneg hpos hdata
    exact ⟨_, openf_load_bmp_eq_ok data hlen hsig hbpp hcomp hpos (by omega) hdata, rfl⟩

/-- **C7 witness.**  A hand-built 1×2 BMP with stored height −2
(`2^32 - 2` as a two's-complement field) decodes successfully with height
magnitude 2. -/
theorem C7_witness :
    ∃ img, openf_load_bmp (mkBMPHeader 54 1 4294967294 ++ [16, 32, 48, 0, 1, 2, 3, 0])
        = .ok img ∧ img.height = 2 :=
  (C7_dimension_validation (mkBMPHeader 54 1 4294967294 ++ [16, 32, 48, 0, 1, 2, 3, 0])
    (by decide) (by decide) (by decide) (by decide)).2 (by decide) (by decide) (by decide)

/-- **C10.**  `openf_load_bmp` never inspects the info header's planes,
header-size, or image-data-size fields: for every input passing the
signature check (bytes 0-1), the bit-depth check (bytes 28-29), the
compression check (bytes 30-33) and the dimension checks (bytes 18-25),
with enough pixel bytes at the declared offset, decoding succeeds.  No
hypothesis mentions bytes 14-17 (`biSize`), 26-27 (`biPlanes`) or 34-37
(`biSizeImage`): they may hold any values. -/
theorem C10_ignored_fields (data : List Nat) (hlen : 54 ≤ data.length)
    (hsig : readU16 data 0 = 19778)
    (hbpp : readU16 data 28 = 24) (hcomp : readU32 data 30 = 0)
    (hwpos : 0 < readI32 data 18) (hhne : readI32 data 22 ≠ 0)
    (hdata : readU32 data 10
      + (readI32 data 22).natAbs * bmpRowSize (readI32 data 18).toNat ≤ data.length) :
    ∃ img, openf_load_bmp data = .ok img :=
  ⟨_, openf_load_bmp_eq_ok data hlen hsig hbpp hcomp hwpos hhne hdata⟩

/-- **C10 witness.**  A 1×1 BMP whose header declares header size 99
(≠ 40), planes 7 (≠ 1) and image data size 12345 (inconsistent) still
decodes successfully. -/
theorem C10_witness :
    ∃ img, openf_load_bmp (u16le 19778 ++ u32le 0 ++ u16le 0 ++ u16le 0 ++ u32le 54
      ++ u32le 99 ++ u32le 1 ++ u32le 1 ++ u16le 7 ++ u16le 24 ++ u32le 0
      ++ u32le 12345 ++ u32le 0 ++ u32le 0 ++ u32le 0 ++ u32le 0
      ++ [10, 20, 30, 0]) = .ok img :=
  C10_ignored_fields (u16le 19778 ++ u32le 0 ++ u16le 0 ++ u16le 0 ++ u32le 54
      ++ u32le 99 ++ u32le 1 ++ u32le 1 ++ u16le 7 ++ u16le 24 ++ u32le 0
      ++ u32le 12345 ++ u32le 0 ++ u32le 0 ++ u32le 0 ++ u32le 0
      ++ [10, 20, 30, 0])
    (by decide) (by decide) (by decide) (by decide) (by decide) (by decide) (by decide)

/-! ### The encoder's header (C8) -/

/-- **C8 counterexample.**  The claim says the declared total file size is
`14 + 40 + row_stride * height` for every accepted image; but
`bfSize = (unsigned int)file_size` truncates to 32 bits (openf.h line
473).  For width 4096 (stride 12288) and height 349526 the true size is
`54 + 12288 * 349526 = 4294975542 ≥ 2^32`, and the stored field reads back
as `4294975542 mod 2^32 = 8246`. -/
theorem C8_counterexample :
    readU32 (openf_save_bmp ⟨4096, 349526, List.replicate (4096 * 349526 * 3) 0⟩) 2 = 8246
      ∧ 14 + 40 + bmpRowSize 4096 * 349526 = 4294975542
      ∧ (8246 : Nat) ≠ 4294975542 := by
  refine ⟨?_, by norm_num [bmpRowSize], by norm_num⟩
  rw [save_readU32_2]
  norm_num [bmpRowSize]

/-- **C8 (amended).**  For every image with `0 < height < 2^31`, the
emitted stream has: signature "BM"; declared total file size
`(14 + 40 + row_stride * height) mod 2^32`; pixel-data offset 54; info
header size 40; planes 1; bits-per-pixel 24; compression 0; image data
size `(row_stride * height) mod 2^32`; zero resolution fields; a height
field that reads back as the (positive) height; actual length
`14 + 40 + row_stride * height`; and zero bytes in each row's padding
tail.  (Only the two 4-byte size fields differ from the original claim,
by the `mod 2^32` the `(unsigned int)` casts force; the height-field
positivity needs `height < 2^31`, above which the `(int)height` cast
would flip its sign bit.) -/
theorem C8_saved_header_amended (img : OpenF_Image)
    (hh0 : 0 < img.height) (hh : img.height < 2147483648) :
    readU16 (openf_save_bmp img) 0 = 19778
    ∧ readU32 (openf_save_bmp img) 2
        = (14 + 40 + bmpRowSize img.width * img.height) % 4294967296
    ∧ readU32 (openf_save_bmp img) 10 = 54
    ∧ readU32 (openf_save_bmp img) 14 = 40
    ∧ readU16 (openf_save_bmp img) 26 = 1
    ∧ readU16 (openf_save_bmp img) 28 = 24
    ∧ readU32 (openf_save_bmp img) 30 = 0
    ∧ readU32 (openf_save_bmp img) 34 = bmpRowSize img.width * img.height % 4294967296
    ∧ readU32 (openf_save_bmp img) 38 = 0
    ∧ readU32 (openf_save_bmp img) 42 = 0
    ∧ readI32 (openf_save_bmp img) 22 = (img.height : Int)
    ∧ 0 < readI32 (openf_save_bmp img) 22
    ∧ (openf_save_bmp img).length = 14 + 40 + bmpRowSize img.width * img.height
    ∧ (∀ y k, y < img.height → img.width * 3 ≤ k → k < bmpRowSize img.width →
        (openf_save_bmp img).getD (54 + (y * bmpRowSize img.width + k)) 0 = 0) := by
  refine ⟨save_readU16_0 img, ?_, save_readU32_10 img, save_readU32_14 img,
    save_readU16_26 img, save_readU16_28 img, save_readU32_30 img, save_readU32_34 img,
    save_readU32_38 img, save_readU32_42 img, save_readI32_22 img hh, ?_, ?_, ?_⟩
  · rw [save_readU32_2]
  · rw [save_readI32_22 img hh]
    omega
  · rw [save_length]
    ring
  · intro y k hy h1 h2
    rw [save_getD_rows img (y * bmpRowSize img.width + k),
      flatMap_getD (bmpRowSize img.width) img.height _
        (fun j _ => encodeRow_length _ _ _ _) y k hy h2]
    have hraw := length_flatMap_const img.width 3 (fun q =>
      [img.pixels.getD (((img.height - 1 - y) * img.width + q) * 3 % 4294967296 + 2) 0,
       img.pixels.getD (((img.height - 1 - y) * img.width + q) * 3 % 4294967296 + 1) 0,
       img.pixels.getD (((img.height - 1 - y) * img.width + q) * 3 % 4294967296 + 0) 0])
      (fun _ _ => rfl)
    unfold encodeRow
    rw [getD_take_of_lt _ h2,
      List.getD_append_right _ _ _ _ (by rw [hraw]; omega),
      hraw, getD_replicate_of_lt (by omega) 0]

/-- **C8 witness.**  A 1×1 image: the emitted header has signature "BM"
and a positive height field reading back 1. -/
theorem C8_witness :
    readU16 (openf_save_bmp ⟨1, 1, [0, 0, 0]⟩) 0 = 19778
      ∧ readI32 (openf_save_bmp ⟨1, 1, [0, 0, 0]⟩) 22 = 1 :=
  ⟨(C8_saved_header_amended ⟨1, 1, [0, 0, 0]⟩ (by decide) (by decide)).1,
   (C8_saved_header_amended ⟨1, 1, [0, 0, 0]⟩
      (by decide) (by decide)).2.2.2.2.2.2.2.2.2.2.1⟩

/-! ### The declared pixel-data offset is honored (C9) -/

theorem mk_readU16_0 (o w h : Nat) (rest : List Nat) :
    readU16 (mkBMPHeader o w h ++ rest) 0 = 19778 := by
  norm_num [mkBMPHeader, u16le, u32le, readU16, List.cons_append,
    List.getD_cons_succ, List.getD_cons_zero]

theorem mk_readU32_10 (o w h : Nat) (rest : List Nat) :
    readU32 (mkBMPHeader o w h ++ rest) 10 = o % 4294967296 := by
  norm_num [mkBMPHeader, u16le, u32le, readU32, List.cons_append,
    List.getD_cons_succ, List.getD_cons_zero]
  omega

theorem mk_readU32_18 (o w h : Nat) (rest : List Nat) :
    readU32 (mkBMPHeader o w h ++ rest) 18 = w % 4294967296 := by
  norm_num [mkBMPHeader, u16le, u32le, readU32, List.cons_append,
    List.getD_cons_succ, List.getD_cons_zero]
  omega

theorem mk_readU32_22 (o w h : Nat) (rest : List Nat) :
    readU32 (mkBMPHeader o w h ++ rest) 22 = h % 4294967296 := by
  norm_num [mkBMPHeader, u16le, u32le, readU32, List.cons_append,
    List.getD_cons_succ, List.getD_cons_zero]
  omega

theorem mk_readU16_28 (o w h : Nat) (rest : List Nat) :
    readU16 (mkBMPHeader o w h ++ rest) 28 = 24 := by
  norm_num [mkBMPHeader, u16le, u32le, readU16, List.cons_append,
    List.getD_cons_succ, List.getD_cons_zero]

theorem mk_readU32_30 (o w h : Nat) (rest : List Nat) :
    readU32 (mkBMPHeader o w h ++ rest) 30 = 0 := by
  norm_num [mkBMPHeader, u16le, u32le, readU32, List.cons_append,
    List.getD_cons_succ, List.getD_cons_zero]

theorem mk_readI32_18 (o w h : Nat) (rest : List Nat) (hw : w < 2147483648) :
    readI32 (mkBMPHeader o w h ++ rest) 18 = (w : Int) := by
  unfold readI32
  rw [mk_readU32_18, Nat.mod_eq_of_lt (by omega), if_pos hw]

theorem mk_readI32_22 (o w h : Nat) (rest : List Nat) (hh : h < 2147483648) :
    readI32 (mkBMPHeader o w h ++ rest) 22 = (h : Int) := by
  unfold readI32
  rw [mk_readU32_22, Nat.mod_eq_of_lt (by omega), if_pos hh]

theorem mk_length (o w h : Nat) (rest : List Nat) :
    (mkBMPHeader o w h ++ rest).length = 54 + rest.length := by
  rw [List.length_append, mkBMPHeader_length]

theorem mk_drop (o w h : Nat) (rest : List Nat) (k : Nat) :
    (mkBMPHeader o w h ++ rest).drop (54 + k) = rest.drop k := by
  rw [show (54 : Nat) + k = (mkBMPHeader o w h).length + k by rw [mkBMPHeader_length],
    drop_append_len]

/-- When every validation step passes but the stream is short of
`height * row_size` pixel bytes from the declared offset on, the row loop
hits a short read and `openf_load_bmp` returns `READ_FAILED`. -/
theorem openf_load_bmp_eq_readFailed (data : List Nat)
    (hlen : 54 ≤ data.length) (hsig : readU16 data 0 = 19778)
    (hbpp : readU16 data 28 = 24) (hcomp : readU32 data 30 = 0)
    (hwpos : 0 < readI32 data 18) (hhne : readI32 data 22 ≠ 0)
    (hdata : data.length < readU32 data 10
      + (readI32 data 22).natAbs * bmpRowSize (readI32 data 18).toNat) :
    openf_load_bmp data = .error .READ_FAILED := by
  unfold openf_load_bmp
  rw [if_neg (by omega), if_neg (by simp [hsig]), if_neg (by omega),
    if_neg (by simp [hbpp, hcomp]), if_neg (by push_neg; exact ⟨hwpos, hhne⟩),
    if_pos hdata]

/-- **C9.**  `openf_load_bmp` reads pixel rows at the byte position the
file header declares, whatever it is: a file with a gap of any length
between the headers and the pixel data, declaring offset `54 + gap`,
decodes exactly like the contiguous file declaring offset 54 with the same
pixel bytes. -/
theorem C9_offset_honored (w h : Nat) (hw0 : 0 < w) (hw : w < 2147483648)
    (hh0 : 0 < h) (hh : h < 2147483648) (gap body : List Nat)
    (hoff : 54 + gap.length < 4294967296) :
    openf_load_bmp (mkBMPHeader (54 + gap.length) w h ++ (gap ++ body))
      = openf_load_bmp (mkBMPHeader 54 w h ++ body) := by
  have e18a := mk_readI32_18 (54 + gap.length) w h (gap ++ body) hw
  have e18b := mk_readI32_18 54 w h body hw
  have e22a := mk_readI32_22 (54 + gap.length) w h (gap ++ body) hh
  have e22b := mk_readI32_22 54 w h body hh
  have eoffa : readU32 (mkBMPHeader (54 + gap.length) w h ++ (gap ++ body)) 10
      = 54 + gap.length := by
    rw [mk_readU32_10]
    exact Nat.mod_eq_of_lt hoff
  have eoffb : readU32 (mkBMPHeader 54 w h ++ body) 10 = 54 := by
    rw [mk_readU32_10]
  have elenA : (mkBMPHeader (54 + gap.length) w h ++ (gap ++ body)).length
      = 54 + (gap.length + body.length) := by
    rw [mk_length, List.length_append]
  have elenB : (mkBMPHeader 54 w h ++ body).length = 54 + body.length :=
    mk_length 54 w h body
  by_cases hd : body.length < h * bmpRowSize w
  · rw [openf_load_bmp_eq_readFailed _ (by rw [elenA]; omega) (mk_readU16_0 _ _ _ _)
      (mk_readU16_28 _ _ _ _) (mk_readU32_30 _ _ _ _)
      (by rw [e18a]; omega) (by rw [e22a]; omega)
      (by rw [elenA, eoffa, e18a, e22a]
          simp only [Int.toNat_ofNat, Int.natAbs_ofNat]
          omega),
      openf_load_bmp_eq_readFailed _ (by rw [elenB]; omega) (mk_readU16_0 _ _ _ _)
      (mk_readU16_28 _ _ _ _) (mk_readU32_30 _ _ _ _)
      (by rw [e18b]; omega) (by rw [e22b]; omega)
      (by rw [elenB, eoffb, e18b, e22b]
          simp only [Int.toNat_ofNat, Int.natAbs_ofNat]
          omega)]
  · push_neg at hd
    rw [openf_load_bmp_eq_ok _ (by rw [elenA]; omega) (mk_readU16_0 _ _ _ _)
      (mk_readU16_28 _ _ _ _) (mk_readU32_30 _ _ _ _)
      (by rw [e18a]; omega) (by rw [e22a]; omega)
      (by rw [elenA, eoffa, e18a, e22a]
          simp only [Int.toNat_ofNat, Int.natAbs_ofNat]
          omega),
      openf_load_bmp_eq_ok _ (by rw [elenB]; omega) (mk_readU16_0 _ _ _ _)
      (mk_readU16_28 _ _ _ _) (mk_readU32_30 _ _ _ _)
      (by rw [e18b]; omega) (by rw [e22b]; omega)
      (by rw [elenB, eoffb, e18b, e22b]
          simp only [Int.toNat_ofNat, Int.natAbs_ofNat]
          omega)]
    rw [e18a, e18b, e22a, e22b, eoffa, eoffb]
    simp only [Int.toNat_ofNat, Int.natAbs_ofNat, Except.ok.injEq, OpenF_Image.mk.injEq]
    refine ⟨trivial, trivial, ?_⟩
    apply decodePixels_congr
    intro y hy
    rw [show 54 + gap.length + y * bmpRowSize w = 54 + (gap.length + y * bmpRowSize w)
        from by ring,
      mk_drop, drop_append_len, mk_drop]

/-- **C9 witness.**  A 1×1 BMP with a 6-byte gap between the headers and
the pixel data, declaring offset 60, decodes like the contiguous one. -/
theorem C9_witness :
    openf_load_bmp (mkBMPHeader (54 + (List.length [9, 9, 9, 9, 9, 9])) 1 1
        ++ ([9, 9, 9, 9, 9, 9] ++ [16, 32, 48, 0]))
      = openf_load_bmp (mkBMPHeader 54 1 1 ++ [16, 32, 48, 0]) :=
  C9_offset_honored 1 1 (by decide) (by decide) (by decide) (by decide)
    [9, 9, 9, 9, 9, 9] [16, 32, 48, 0] (by decide)

end OpenF
